import Mathlib

/-!
Shallow embedding of parts of the keras-cv repository, for checking its
natural-language specification.

Files embedded from source:
  * `keras_cv/metrics/coco/recall.py` (`COCORecall.result`, `_single_result`,
    `_key_for`, `iou_threshold_str_rep`)
  * `keras_cv/layers/preprocessing/gaussian_blur.py` (`GaussianBlur.__init__`)
  * `keras_cv/layers/preprocessing/equalize.py` (`Equalize.equalize_channel`)
  * `keras_cv/layers/preprocessing/mix_up.py` (`MixUp._smooth_labels` and the
    no-augmentation branch of `MixUp.call`)

The matching engine and the accumulator (`keras_cv/metrics/coco/base.py`,
class `COCOBase`) are not among the provided source files; where a claim
depends on them they are modelled from the spec, and each such definition
says so in its doc comment.

Tensors are embedded as total functions out of ℕ (indices beyond the
logical shape are irrelevant to every statement, which quantifies over
in-range indices) or as lists; machine floats are embedded as ℚ.
-/

/-- `tf.math.divide_no_nan(x, y)`: elementwise division that returns 0 when
the denominator is 0 (instead of `inf`/`nan`). -/
def divide_no_nan (x y : ℚ) : ℚ :=
  if y = 0 then 0 else x / y

/-- The state of a `COCORecall` metric object as used by `result()`:
the configuration lists (`iou_thresholds`, `area_ranges`, `max_detections`)
and the accumulated tensors `true_positives` (shape `[t, k, a, m]`) and
`ground_truth_boxes` (shape `[k, a]`), where `t` is the number of IoU
thresholds, `k` the number of classes, `a = len(area_ranges)` and
`m = len(max_detections)`.  Area-range labels are embedded as the strings
they print as inside the f-string of `_key_for`. -/
structure COCORecall where
  iou_thresholds : List ℚ
  area_ranges : List String
  max_detections : List ℤ
  t : ℕ
  k : ℕ
  true_positives : ℕ → ℕ → ℕ → ℕ → ℚ
  ground_truth_boxes : ℕ → ℕ → ℚ

namespace COCORecall

/-- `tf.shape(self.true_positives)[2]`: the area-range dimension of the
accumulator tensors, which `COCOBase` builds with `len(area_ranges)` entries. -/
def aDim (s : COCORecall) : ℕ := s.area_ranges.length

/-- `tf.shape(self.true_positives)[3]`: the max-detections dimension of the
accumulator tensors, which `COCOBase` builds with `len(max_detections)` entries. -/
def mDim (s : COCORecall) : ℕ := s.max_detections.length

/-- `COCORecall._single_result(a_i, m_i)`: elementwise
`divide_no_nan(true_positives[:, :, a_i, m_i], ground_truth_boxes[None, :, a_i])`
(a `[t, k]` tensor of per-threshold per-class recalls, broadcasting the
ground-truth counts over the threshold axis), then `tf.math.reduce_mean`
over all `t * k` entries. -/
def single_result (s : COCORecall) (ai mi : ℕ) : ℚ :=
  (∑ i ∈ Finset.range s.t, ∑ j ∈ Finset.range s.k,
      divide_no_nan (s.true_positives i j ai mi) (s.ground_truth_boxes j ai))
    / (s.t * s.k)

/-- `COCORecall.iou_threshold_str_rep()`: returns the hard-coded string
`"[0.5, 0.95, 0.05]"` whatever the configured thresholds are (the source
carries a `TODO(lukewood): generate a nice value`). -/
def iou_threshold_str_rep (_s : COCORecall) : String :=
  "[0.5, 0.95, 0.05]"

/-- `COCORecall._key_for(a_i, m_i)`: the f-string
`f"Recall @ {self.iou_threshold_str_rep()}, {area_range}, max_dets={max_dets}"`. -/
def key_for (s : COCORecall) (ai mi : ℕ) : String :=
  "Recall @ " ++ s.iou_threshold_str_rep ++ ", " ++ s.area_ranges.getD ai "" ++
    ", max_dets=" ++ toString (s.max_detections.getD mi 0)

/-- The value `COCORecall.result()` returns: a bare scalar tensor, or a
Python dict embedded as the list of key/value pairs in insertion order. -/
inductive RecallResult where
  | scalar (v : ℚ)
  | mapping (entries : List (String × ℚ))
deriving DecidableEq

/-- Whether a `RecallResult` is the bare-scalar form. -/
def RecallResult.isScalar : RecallResult → Bool
  | .scalar _ => true
  | .mapping _ => false

/-- `COCORecall.result()`: with `a = shape[2]`, `m = shape[3]` and
`n_results = a * m`, returns `_single_result(0, 0)` bare when
`n_results == 1`, else the dict `{ _key_for(a_i, m_i): _single_result(a_i, m_i) }`
over `a_i in range(a)` (outer loop) and `m_i in range(m)` (inner loop). -/
def result (s : COCORecall) : RecallResult :=
  if s.aDim * s.mDim = 1 then
    .scalar (s.single_result 0 0)
  else
    .mapping (((List.range s.aDim).map (fun ai =>
      (List.range s.mDim).map (fun mi => (s.key_for ai mi, s.single_result ai mi)))).flatten)

end COCORecall

/-- A `COCORecall` state after one image with zero ground-truth boxes and one
prediction (the prediction cannot match, so `true_positives` is 0, and the
ground-truth count is 0), with a single IoU threshold, class, area range and
max-detections value. -/
def stateZeroGT : COCORecall :=
  { iou_thresholds := [1/2]
    area_ranges := ["[0, 1e+09]"]
    max_detections := [1]
    t := 1, k := 1
    true_positives := fun _ _ _ _ => 0
    ground_truth_boxes := fun _ _ => 0 }

/-- A `COCORecall` state with two IoU thresholds but a single area range and a
single max-detections value. -/
def stateTwoThresholds : COCORecall :=
  { iou_thresholds := [1/2, 3/4]
    area_ranges := ["[0, 1e+09]"]
    max_detections := [1]
    t := 2, k := 1
    true_positives := fun _ _ _ _ => 1
    ground_truth_boxes := fun _ _ => 1 }

/-- A `COCORecall` state with one threshold, two classes, a single area range
and max-detections value; class 0 has 1 true positive out of 1 ground truth,
class 1 has 0 true positives out of 3 ground truths. -/
def stateTwoClasses : COCORecall :=
  { iou_thresholds := [1/2]
    area_ranges := ["[0, 1e+09]"]
    max_detections := [1]
    t := 1, k := 2
    true_positives := fun _ j _ _ => if j = 0 then 1 else 0
    ground_truth_boxes := fun j _ => if j = 0 then 1 else 3 }

/-- A `COCORecall` state with two area ranges (so `result()` takes the
mapping branch), one threshold, one class and one max-detections value. -/
def stateTwoAreas : COCORecall :=
  { iou_thresholds := [1/2]
    area_ranges := ["[0, 1024]", "[1024, 1e+09]"]
    max_detections := [1]
    t := 1, k := 1
    true_positives := fun _ _ _ _ => 1
    ground_truth_boxes := fun _ _ => 2 }

/-- A bounding box with a class label, per the spec's data model
(`BoundingBox`: corners and class id; a prediction's confidence is carried
by the position of the box in the prediction list, which the matcher
receives already sorted by descending confidence). -/
structure Box where
  x_min : ℚ
  y_min : ℚ
  x_max : ℚ
  y_max : ℚ
  class_id : ℤ

/-- Box area `(x_max − x_min) × (y_max − y_min)`; a malformed box
(`x_max < x_min` or `y_max < y_min`) has its area treated as zero. -/
def Box.area (b : Box) : ℚ :=
  if b.x_max < b.x_min ∨ b.y_max < b.y_min then 0
  else (b.x_max - b.x_min) * (b.y_max - b.y_min)

/-- Area of the intersection of two boxes (0 when they do not overlap). -/
def interArea (p g : Box) : ℚ :=
  max 0 (min p.x_max g.x_max - max p.x_min g.x_min) *
    max 0 (min p.y_max g.y_max - max p.y_min g.y_min)

/-- Intersection over union: intersection area over union area, where the
union excludes the double-counted intersection, and division by a zero
union yields 0 rather than an error. -/
def iou (p g : Box) : ℚ :=
  let u := p.area + g.area - interArea p g
  if u = 0 then 0 else interArea p g / u

/-- Fold picking the candidate with the highest IoU; on a tie the earlier
candidate is kept (ties broken by original order). -/
def pickBest : List (ℕ × ℚ) → Option (ℕ × ℚ)
  | [] => none
  | c :: cs =>
    match pickBest cs with
    | none => some c
    | some b => if b.2 > c.2 then some b else some c

/-- Modelled from the spec: the candidate ground truths a prediction is
eligible to match (`COCOBase`'s matching engine, `keras_cv/metrics/coco/base.py`,
is not among the provided sources).  A ground-truth index is a candidate
exactly when it is not yet matched, has the prediction's class, and has
IoU ≥ threshold (boundary inclusive). -/
def candidates (gts : List Box) (matched : List ℕ) (p : Box) (thr : ℚ) :
    List (ℕ × ℚ) :=
  (List.range gts.length).filterMap fun gi =>
    match gts.get? gi with
    | none => none
    | some g =>
      if gi ∉ matched ∧ g.class_id = p.class_id ∧ thr ≤ iou p g then
        some (gi, iou p g)
      else none

/-- Modelled from the spec: greedy matching loop over the predictions (in
descending-confidence order), assigning each to the highest-IoU unmatched
same-class ground truth with IoU ≥ threshold; a matched ground truth cannot
be matched again.  Returns (prediction index, ground-truth index) pairs. -/
def matchImageGo (gts : List Box) (thr : ℚ) :
    List Box → ℕ → List ℕ → List (ℕ × ℕ)
  | [], _, _ => []
  | p :: ps, pi, matched =>
    match pickBest (candidates gts matched p thr) with
    | none => matchImageGo gts thr ps (pi + 1) matched
    | some (gi, _) => (pi, gi) :: matchImageGo gts thr ps (pi + 1) (gi :: matched)

/-- Modelled from the spec: one image's greedy matching at one IoU
threshold (`COCOBase`'s matching engine is not among the provided sources). -/
def matchImage (preds gts : List Box) (thr : ℚ) : List (ℕ × ℕ) :=
  matchImageGo gts thr preds 0 []

/-- Modelled from the spec: one image's per-bucket counts (`MatchResult`),
the per-image contribution `COCOBase.update_state` folds into the running
totals (`keras_cv/metrics/coco/base.py` is not among the provided sources). -/
structure MatchResult where
  tp : ℕ → ℕ → ℕ → ℕ → ℚ
  gt : ℕ → ℕ → ℚ

/-- Modelled from the spec: `update(match_results)` folds one image's
per-bucket counts into the accumulator's running totals by elementwise
addition; the configuration fields are untouched. -/
def updateState (s : COCORecall) (r : MatchResult) : COCORecall :=
  { s with
    true_positives := fun i j ai mi => s.true_positives i j ai mi + r.tp i j ai mi
    ground_truth_boxes := fun j ai => s.ground_truth_boxes j ai + r.gt j ai }

/-- Modelled from the spec: processing a finite set of images one at a time,
folding each image's match result into the accumulator. -/
def accumulate (s : COCORecall) (l : List MatchResult) : COCORecall :=
  l.foldl updateState s

/-- Modelled from the spec: batching two images' match results together
into a single per-bucket count table (elementwise addition). -/
def combineResults (r₁ r₂ : MatchResult) : MatchResult :=
  { tp := fun i j ai mi => r₁.tp i j ai mi + r₂.tp i j ai mi
    gt := fun j ai => r₁.gt j ai + r₂.gt j ai }

/-- The per-image zero contribution (an image with no boxes). -/
def emptyResult : MatchResult :=
  { tp := fun _ _ _ _ => 0, gt := fun _ _ => 0 }

/-- A Python numeric value as `GaussianBlur.__init__` distinguishes them:
an `int` or a `float` (the `isinstance(..., type(...))` checks compare these
tags). -/
inductive PyNum where
  | int (n : ℤ)
  | float (q : ℚ)

/-- The numeric value of a `PyNum` (Python compares `int` and `float` by
value). -/
def PyNum.val : PyNum → ℚ
  | .int n => (n : ℚ)
  | .float q => q

/-- `isinstance(a, type(b))` for two numbers restricted to the `int`/`float`
tags: true exactly when the tags agree. -/
def PyNum.sameType : PyNum → PyNum → Bool
  | .int _, .int _ => true
  | .float _, .float _ => true
  | _, _ => false

/-- `type(sigma)(0)`: the zero of the same Python type. -/
def PyNum.zeroLike : PyNum → PyNum
  | .int _ => .int 0
  | .float _ => .float 0

/-- Is this number a Python `float` (`isinstance(value, float)`)? -/
def PyNum.isFloat : PyNum → Bool
  | .float _ => true
  | .int _ => false

/-- The `kernel_size` argument of `GaussianBlur.__init__`: an int, a 2-element
tuple/list, or a value of any other type. -/
inductive KernelArg where
  | int (n : ℤ)
  | pair (x y : ℤ)
  | other

/-- The `sigma` argument of `GaussianBlur.__init__`: a scalar number or a
2-element tuple/list `(lower, upper)`. -/
inductive SigmaArg where
  | scalar (v : PyNum)
  | pair (lo hi : PyNum)

/-- The exception `GaussianBlur.__init__` escapes with. -/
inductive InitError where
  | valueError
  | attributeError
deriving DecidableEq

/-- The fields a successful `GaussianBlur.__init__` stores. -/
structure GaussianBlurLayer where
  x : ℤ
  y : ℤ
  sigma_min : PyNum
  sigma_max : PyNum

/-- The `x`/`y` kernel dimensions:
tuple/list → `(kernel_size[0], kernel_size[1])`, int → squared kernel,
anything else → `None` (the constructor raises `ValueError`). -/
def kernelDims : KernelArg → Option (ℤ × ℤ)
  | .pair a b => some (a, b)
  | .int n => some (n, n)
  | .other => none

/-- `GaussianBlur.__init__(kernel_size, sigma)`.  Checks in source order:
kernel-size type; `sigma` lower/upper extraction (`type(sigma)(0)` and
`sigma` for a scalar); the bound-type check — whose `raise ValueError`
formats its message with the nonexistent attribute `self.width_lower`, so
Python actually escapes with `AttributeError`; upper < lower; and, when the
original `sigma` argument is a `float` scalar, a negative lower bound. -/
def gaussian_blur_init (kernel_size : KernelArg) (sigma : SigmaArg) :
    Except InitError GaussianBlurLayer :=
  match kernelDims kernel_size with
  | none => .error .valueError
  | some (x, y) =>
    let sigma_min := match sigma with
      | .pair lo _ => lo
      | .scalar v => v.zeroLike
    let sigma_max := match sigma with
      | .pair _ hi => hi
      | .scalar v => v
    if sigma_min.sameType sigma_max then
      if sigma_max.val < sigma_min.val then .error .valueError
      else
        let sigmaIsFloat := match sigma with
          | .scalar v => v.isFloat
          | .pair _ _ => false
        if sigmaIsFloat ∧ sigma_min.val < 0 then .error .valueError
        else .ok { x := x, y := y, sigma_min := sigma_min, sigma_max := sigma_max }
    else .error .attributeError

namespace Equalize

/-- The bin `tf.histogram_fixed_width(values, [0, 255], nbins=bins)` assigns
to a pixel value: `⌊v·bins/255⌋` clipped to the last bin. -/
def binIndex (bins v : ℕ) : ℕ :=
  min (v * bins / 255) (bins - 1)

/-- `tf.histogram_fixed_width(image, [0, 255], nbins=self.bins)`: per-bin
pixel counts of the channel. -/
def histogram (bins : ℕ) (img : List ℕ) : List ℕ :=
  (List.range bins).map fun b => (img.filter fun v => binIndex bins v = b).length

/-- `tf.gather(histogram, tf.where(histogram != 0))` reshaped flat: the
nonzero histogram counts, in bin order. -/
def nonzeroHistogram (bins : ℕ) (img : List ℕ) : List ℕ :=
  (histogram bins img).filter fun c => c ≠ 0

/-- The equalization step
`(tf.reduce_sum(nonzero_histogram) - nonzero_histogram[-1]) // (self.bins - 1)`;
`none` when every count is zero (the empty channel), where the Python
`[-1]` indexing has nothing to return. -/
def step (bins : ℕ) (img : List ℕ) : Option ℕ :=
  match (nonzeroHistogram bins img).getLast? with
  | none => none
  | some lastNZ => some (((nonzeroHistogram bins img).sum - lastNZ) / (bins - 1))

/-- Running prefix sums, `tf.cumsum`. -/
def cumsum (l : List ℕ) : List ℕ :=
  (List.range l.length).map fun i => (l.take (i + 1)).sum

/-- `build_mapping(histogram, step)`: shift the cumulative sum by
`step // 2`, normalize by `step`, prepend 0 dropping the last entry, and
clip into `[0, 255]`. -/
def build_mapping (hist : List ℕ) (st : ℕ) : List ℕ :=
  let lookup_table := (cumsum hist).map fun c => (c + st / 2) / st
  let lookup_table := 0 :: lookup_table.dropLast
  lookup_table.map fun v => min v 255

/-- `Equalize.equalize_channel(image, channel_index)` on one channel,
already cast to int: when the step is zero the `tf.cond` returns the image
unchanged (and the cast back to the input dtype is the identity on integer
pixels in `[0, 255]`); otherwise each pixel is replaced by its lookup-table
entry (`tf.gather(build_mapping(histogram, step), image)` indexes the table
by pixel value). -/
def equalize_channel (bins : ℕ) (img : List ℕ) : Option (List ℕ) :=
  match step bins img with
  | none => none
  | some st =>
    if st = 0 then some img
    else some (img.map fun v => (build_mapping (histogram bins img) st).getD v 0)

end Equalize

namespace MixUp

/-- `MixUp._smooth_labels(labels)` for labels of shape `[batch, classes]`:
`off_value = label_smoothing / num_classes`,
`on_value = 1 - label_smoothing + off_value`, returning
`on_value * labels + (1 - labels) * off_value`.  (`self.label_smoothing or
0.0` evaluates to the same numeric value for any numeric coefficient, so it
is embedded as the coefficient itself.) -/
def smooth_labels (label_smoothing : ℚ) (labels : List (List ℚ)) :
    List (List ℚ) :=
  let numClasses : ℚ := ((labels.getD 0 []).length : ℚ)
  let off_value := label_smoothing / numClasses
  let on_value := 1 - label_smoothing + off_value
  labels.map fun row => row.map fun x => on_value * x + (1 - x) * off_value

/-- The `no_augment` branch of `MixUp.call`: returns
`(images, self._smooth_labels(labels))`. -/
def no_augment {I : Type} (images : I) (label_smoothing : ℚ)
    (labels : List (List ℚ)) : I × List (List ℚ) :=
  (images, smooth_labels label_smoothing labels)

end MixUp

/-- A `COCORecall` configuration with IoU threshold 0.3 (written 3/10), one
area range and one max-detections value, before any update. -/
def configLowThreshold : COCORecall :=
  { iou_thresholds := [3/10]
    area_ranges := ["[0, 1e+09]"]
    max_detections := [100]
    t := 1, k := 1
    true_positives := fun _ _ _ _ => 0
    ground_truth_boxes := fun _ _ => 0 }

/-- The same configuration as `configLowThreshold` except that the IoU
threshold is 0.7 (written 7/10). -/
def configHighThreshold : COCORecall :=
  { iou_thresholds := [7/10]
    area_ranges := ["[0, 1e+09]"]
    max_detections := [100]
    t := 1, k := 1
    true_positives := fun _ _ _ _ => 0
    ground_truth_boxes := fun _ _ => 0 }

/-- A prediction box `[0, 0, 10, 10]` of class 1. -/
def predBox : Box :=
  { x_min := 0, y_min := 0, x_max := 10, y_max := 10, class_id := 1 }

/-- A ground-truth box `[0, 0, 10, 5]` of class 1; its IoU with `predBox`
is 50/100 = 1/2 exactly. -/
def gtBox : Box :=
  { x_min := 0, y_min := 0, x_max := 10, y_max := 5, class_id := 1 }

/-- A nonzero per-image match result used to exercise the accumulator. -/
def resultA : MatchResult :=
  { tp := fun _ _ _ _ => 1, gt := fun _ _ => 2 }

/-- A second per-image match result used to exercise the accumulator. -/
def resultB : MatchResult :=
  { tp := fun _ _ _ _ => 0, gt := fun _ _ => 1 }

/-- Claim C1, counterexample: after one image with zero ground-truth boxes
and one prediction, `COCORecall.result()` reports the bucket's recall as the
number 0 — `tf.math.divide_no_nan` turns the 0/0 quotient into 0 — not as a
distinguished "no data" sentinel. -/
theorem result_zero_groundtruth_is_numeric_zero :
    stateZeroGT.result = .scalar 0 := by
  simp [COCORecall.result, COCORecall.single_result, COCORecall.aDim, COCORecall.mDim,
    stateZeroGT, Finset.sum_range_succ, divide_no_nan]

/-- Claim C1, amended: in every evaluation state in which every class's
ground-truth count for a bucket is zero, `COCORecall._single_result` reports
that bucket's recall as the number 0 (zero-safe division; it neither raises
nor produces a sentinel); the zero-ground-truth/one-prediction scenario is
the witness. -/
theorem single_result_all_zero_groundtruth_eq_zero (s : COCORecall) (ai mi : ℕ)
    (h : ∀ j, j < s.k → s.ground_truth_boxes j ai = 0) :
    s.single_result ai mi = 0 := by
  unfold COCORecall.single_result
  rw [Finset.sum_eq_zero, zero_div]
  intro i _
  rw [Finset.sum_eq_zero]
  intro j hj
  rw [h j (Finset.mem_range.mp hj)]
  simp [divide_no_nan]

/-- Witness for C1's amended theorem, at the zero-ground-truth state. -/
theorem single_result_all_zero_groundtruth_eq_zero_witness :
    stateZeroGT.single_result 0 0 = 0 :=
  single_result_all_zero_groundtruth_eq_zero stateZeroGT 0 0 (fun _ _ => rfl)

/-- Claim C2, counterexample: with two IoU thresholds but one area range and
one max-detections value there are two (IoU threshold, area range,
max-detections) buckets, yet `COCORecall.result()` returns a bare scalar:
`n_results = a * m` never consults the threshold count. -/
theorem result_scalar_despite_two_thresholds :
    stateTwoThresholds.result.isScalar = true ∧
      stateTwoThresholds.t * stateTwoThresholds.aDim * stateTwoThresholds.mDim ≠ 1 := by
  constructor
  · rfl
  · decide

/-- Claim C2, amended: `COCORecall.result()` returns a single scalar exactly
when only one (area range, max-detections) pair exists — the number of IoU
thresholds is not consulted — and otherwise returns a mapping with one entry
per (area range, max-detections) pair. -/
theorem result_scalar_iff_single_area_maxdet (s : COCORecall) :
    (s.result.isScalar = true ↔ s.aDim * s.mDim = 1) ∧
      (s.aDim * s.mDim ≠ 1 →
        ∃ es, s.result = .mapping es ∧ es.length = s.aDim * s.mDim) := by
  constructor
  · constructor
    · intro h
      by_contra hne
      unfold COCORecall.result at h
      rw [if_neg hne] at h
      simp [COCORecall.RecallResult.isScalar] at h
    · intro h
      unfold COCORecall.result
      rw [if_pos h]
      rfl
  · intro h
    refine ⟨((List.range s.aDim).map (fun ai =>
      (List.range s.mDim).map (fun mi => (s.key_for ai mi, s.single_result ai mi)))).flatten,
      ?_, ?_⟩
    · unfold COCORecall.result
      rw [if_neg h]
    · simp [List.length_flatten, List.map_map, Function.comp_def]

/-- Witness for C2's amended theorem, at the two-area-range state. -/
theorem result_scalar_iff_single_area_maxdet_witness :
    (stateTwoAreas.result.isScalar = true ↔ stateTwoAreas.aDim * stateTwoAreas.mDim = 1) ∧
      (stateTwoAreas.aDim * stateTwoAreas.mDim ≠ 1 →
        ∃ es, stateTwoAreas.result = .mapping es ∧
          es.length = stateTwoAreas.aDim * stateTwoAreas.mDim) :=
  result_scalar_iff_single_area_maxdet stateTwoAreas

/-- Claim C3, counterexample: with one threshold and two classes (1 true
positive of 1 ground truth for class 0; 0 of 3 for class 1) the code's
bucket value is the mean of per-class ratios, 1/2, while the quotient of the
bucket's true-positive and ground-truth totals is 1/4 — `result()` does not
return `true_positives / ground_truth_count` per bucket. -/
theorem bucket_value_not_ratio_of_bucket_totals :
    stateTwoClasses.result = .scalar (1/2) ∧
      divide_no_nan
        (stateTwoClasses.true_positives 0 0 0 0 + stateTwoClasses.true_positives 0 1 0 0)
        (stateTwoClasses.ground_truth_boxes 0 0 + stateTwoClasses.ground_truth_boxes 1 0)
        = 1/4 ∧
      (1/2 : ℚ) ≠ 1/4 := by
  refine ⟨?_, ?_, by norm_num⟩
  · simp [COCORecall.result, COCORecall.single_result, COCORecall.aDim, COCORecall.mDim,
      stateTwoClasses, Finset.sum_range_succ, divide_no_nan]
  · norm_num [stateTwoClasses, divide_no_nan]

/-- Claim C3, amended: `COCORecall.result()` returns for each (area range,
max-detections) pair — the bare scalar when only one pair exists, a mapping
entry keyed by `_key_for` otherwise — the mean over IoU thresholds and
classes of the per-class quotients `true_positives / ground_truth_count`,
where a zero denominator yields zero rather than an error. -/
theorem result_entry_is_mean_of_classwise_ratios (s : COCORecall) (ai mi : ℕ)
    (hai : ai < s.aDim) (hmi : mi < s.mDim) :
    (∀ x : ℚ, divide_no_nan x 0 = 0) ∧
      (s.aDim * s.mDim = 1 →
        s.result = .scalar ((∑ i ∈ Finset.range s.t, ∑ j ∈ Finset.range s.k,
          divide_no_nan (s.true_positives i j 0 0) (s.ground_truth_boxes j 0))
            / (s.t * s.k))) ∧
      (s.aDim * s.mDim ≠ 1 →
        ∃ es, s.result = .mapping es ∧
          (s.key_for ai mi,
            (∑ i ∈ Finset.range s.t, ∑ j ∈ Finset.range s.k,
              divide_no_nan (s.true_positives i j ai mi) (s.ground_truth_boxes j ai))
                / (s.t * s.k)) ∈ es) := by
  refine ⟨fun x => by simp [divide_no_nan], ?_, ?_⟩
  · intro h
    unfold COCORecall.result
    rw [if_pos h]
    rfl
  · intro h
    refine ⟨((List.range s.aDim).map (fun ai' =>
      (List.range s.mDim).map (fun mi' => (s.key_for ai' mi', s.single_result ai' mi')))).flatten,
      ?_, ?_⟩
    · unfold COCORecall.result
      rw [if_neg h]
    · apply List.mem_flatten.mpr
      refine ⟨(List.range s.mDim).map (fun mi' => (s.key_for ai mi', s.single_result ai mi')),
        ?_, ?_⟩
      · exact List.mem_map.mpr ⟨ai, List.mem_range.mpr hai, rfl⟩
      · exact List.mem_map.mpr ⟨mi, List.mem_range.mpr hmi, rfl⟩

/-- Witness for C3's amended theorem: at the two-class single-bucket state
the result is the bare scalar holding the mean of per-class ratios. -/
theorem result_entry_is_mean_of_classwise_ratios_witness :
    stateTwoClasses.result = .scalar ((∑ i ∈ Finset.range stateTwoClasses.t,
      ∑ j ∈ Finset.range stateTwoClasses.k,
        divide_no_nan (stateTwoClasses.true_positives i j 0 0)
          (stateTwoClasses.ground_truth_boxes j 0))
            / (stateTwoClasses.t * stateTwoClasses.k)) :=
  (result_entry_is_mean_of_classwise_ratios stateTwoClasses 0 0 (by decide) (by decide)).2.1
    (by decide)

/-- Claim C4: whenever the accumulated counts satisfy the matching
invariants (counts are nonnegative and, per class, matched true positives
never exceed the ground truths, since each ground truth is consumed at most
once), every recall value `COCORecall._single_result` produces lies in the
closed interval [0, 1]; no sentinel and no error arises. -/
theorem single_result_mem_unit_interval (s : COCORecall) (ai mi : ℕ)
    (ht : 0 < s.t) (hk : 0 < s.k)
    (hb : ∀ i j, i < s.t → j < s.k →
      0 ≤ s.true_positives i j ai mi ∧
        s.true_positives i j ai mi ≤ s.ground_truth_boxes j ai) :
    0 ≤ s.single_result ai mi ∧ s.single_result ai mi ≤ 1 := by
  have hterm : ∀ i ∈ Finset.range s.t, ∀ j ∈ Finset.range s.k,
      0 ≤ divide_no_nan (s.true_positives i j ai mi) (s.ground_truth_boxes j ai) ∧
        divide_no_nan (s.true_positives i j ai mi) (s.ground_truth_boxes j ai) ≤ 1 := by
    intro i hi j hj
    obtain ⟨h0, h1⟩ := hb i j (Finset.mem_range.mp hi) (Finset.mem_range.mp hj)
    unfold divide_no_nan
    split
    · exact ⟨le_refl 0, zero_le_one⟩
    · rename_i hne
      have hgt : 0 < s.ground_truth_boxes j ai :=
        lt_of_le_of_ne (le_trans h0 h1) (Ne.symm hne)
      exact ⟨div_nonneg h0 hgt.le, (div_le_one hgt).mpr h1⟩
  have htk : (0 : ℚ) < (s.t : ℚ) * (s.k : ℚ) := by
    have h1 : (0 : ℚ) < (s.t : ℚ) := by exact_mod_cast ht
    have h2 : (0 : ℚ) < (s.k : ℚ) := by exact_mod_cast hk
    exact mul_pos h1 h2
  unfold COCORecall.single_result
  constructor
  · apply div_nonneg _ htk.le
    apply Finset.sum_nonneg
    intro i hi
    apply Finset.sum_nonneg
    intro j hj
    exact (hterm i hi j hj).1
  · rw [div_le_one htk]
    calc (∑ i ∈ Finset.range s.t, ∑ j ∈ Finset.range s.k,
          divide_no_nan (s.true_positives i j ai mi) (s.ground_truth_boxes j ai))
        ≤ ∑ _i ∈ Finset.range s.t, ∑ _j ∈ Finset.range s.k, (1 : ℚ) := by
          apply Finset.sum_le_sum
          intro i hi
          apply Finset.sum_le_sum
          intro j hj
          exact (hterm i hi j hj).2
      _ = (s.t : ℚ) * (s.k : ℚ) := by
          simp [Finset.sum_const, Finset.card_range, mul_comm]

/-- Witness for C4's theorem at the two-class state. -/
theorem single_result_mem_unit_interval_witness :
    0 ≤ stateTwoClasses.single_result 0 0 ∧ stateTwoClasses.single_result 0 0 ≤ 1 :=
  single_result_mem_unit_interval stateTwoClasses 0 0 (by decide) (by decide)
    (by
      intro i j _ _
      constructor <;> simp only [stateTwoClasses] <;> split <;> norm_num)

/-- Claim C5: two `COCORecall` configurations that differ only in their
configured IoU thresholds (0.3 versus 0.7) produce the same threshold string
and the same result key — `iou_threshold_str_rep` returns a hard-coded
placeholder, so distinct configured thresholds do not produce distinct
threshold strings in the keys. -/
theorem key_threshold_string_ignores_configuration :
    configLowThreshold.iou_threshold_str_rep = configHighThreshold.iou_threshold_str_rep ∧
      configLowThreshold.key_for 0 0 = configHighThreshold.key_for 0 0 ∧
      configLowThreshold.iou_thresholds ≠ configHighThreshold.iou_thresholds := by
  refine ⟨rfl, rfl, ?_⟩
  simp only [configLowThreshold, configHighThreshold, ne_eq, List.cons.injEq, and_true]
  norm_num

/-- Folding two images into the accumulator commutes (elementwise addition
of per-bucket counts is commutative and associative). -/
theorem updateState_swap (s : COCORecall) (a b : MatchResult) :
    updateState (updateState s a) b = updateState (updateState s b) a := by
  cases s
  simp only [updateState]
  congr 1 <;> funext <;> ring

/-- Folding a list of per-image match results into the accumulator is
invariant under permutation of the list. -/
theorem accumulate_perm (l₁ l₂ : List MatchResult) (h : l₁.Perm l₂) :
    ∀ s, accumulate s l₁ = accumulate s l₂ := by
  induction h with
  | nil => intro s; rfl
  | cons x _ ih => intro s; simpa [accumulate] using ih (updateState s x)
  | swap x y l => intro s; simp only [accumulate, List.foldl_cons]; rw [updateState_swap]
  | trans _ _ ih₁ ih₂ => intro s; exact (ih₁ s).trans (ih₂ s)

/-- Claim C6: accumulation is associative and commutative across images —
folding any permutation of a finite list of per-image match results yields
an identical accumulator state and an identical final `result()`, and
updating with two images one at a time equals updating once with the two
images batched together. -/
theorem accumulation_order_independent (s : COCORecall) (l₁ l₂ : List MatchResult)
    (h : l₁.Perm l₂) (r₁ r₂ : MatchResult) :
    accumulate s l₁ = accumulate s l₂ ∧
      (accumulate s l₁).result = (accumulate s l₂).result ∧
      updateState (updateState s r₁) r₂ = updateState s (combineResults r₁ r₂) := by
  have he := accumulate_perm l₁ l₂ h s
  refine ⟨he, by rw [he], ?_⟩
  cases s
  simp only [updateState, combineResults]
  congr 1 <;> funext <;> ring

/-- Witness for C6's theorem: two concrete images folded in either order,
and batched versus one at a time. -/
theorem accumulation_order_independent_witness :
    accumulate stateZeroGT [resultA, resultB] = accumulate stateZeroGT [resultB, resultA] ∧
      (accumulate stateZeroGT [resultA, resultB]).result
        = (accumulate stateZeroGT [resultB, resultA]).result ∧
      updateState (updateState stateZeroGT resultA) resultB
        = updateState stateZeroGT (combineResults resultA resultB) :=
  accumulation_order_independent stateZeroGT [resultA, resultB] [resultB, resultA]
    (List.Perm.swap resultB resultA []) resultA resultB

/-- Claim C7: in the matching engine a prediction is eligible to match a
same-class ground truth exactly when their IoU is greater than or equal to
the threshold (the candidate set contains an unmatched ground truth if and
only if it is unmatched, of the same class, and IoU ≥ threshold), and a
prediction whose IoU equals the threshold exactly is matched — the boundary
is inclusive. -/
theorem match_eligible_iff_iou_ge_threshold :
    (∀ (gts : List Box) (matched : List ℕ) (p : Box) (thr : ℚ) (gi : ℕ) (g : Box),
        gts.get? gi = some g →
          ((gi, iou p g) ∈ candidates gts matched p thr ↔
            gi ∉ matched ∧ g.class_id = p.class_id ∧ thr ≤ iou p g)) ∧
      (∀ (p g : Box) (thr : ℚ), g.class_id = p.class_id → iou p g = thr →
        matchImage [p] [g] thr = [(0, 0)]) := by
  constructor
  · intro gts matched p thr gi g hg
    constructor
    · intro hmem
      rcases List.mem_filterMap.mp hmem with ⟨a, _, hfa⟩
      cases hga : gts.get? a with
      | none => rw [hga] at hfa; exact absurd hfa (by simp)
      | some g' =>
        rw [hga] at hfa
        dsimp only at hfa
        by_cases hc : a ∉ matched ∧ g'.class_id = p.class_id ∧ thr ≤ iou p g'
        · rw [if_pos hc] at hfa
          have ha : a = gi := (Prod.mk.injEq _ _ _ _ ▸ Option.some.injEq _ _ ▸ hfa :
            a = gi ∧ iou p g' = iou p g).1
          subst ha
          rw [hg] at hga
          cases hga
          exact hc
        · rw [if_neg hc] at hfa
          cases hfa
    · intro ⟨h1, h2, h3⟩
      apply List.mem_filterMap.mpr
      refine ⟨gi, ?_, ?_⟩
      · exact List.mem_range.mpr (List.get?_eq_some.mp hg).1
      · rw [hg]
        dsimp only
        rw [if_pos ⟨h1, h2, h3⟩]
  · intro p g thr hcls hiou
    have hcand : candidates [g] [] p thr = [(0, iou p g)] := by
      unfold candidates
      simp [List.range_succ, List.filterMap_cons, hcls, hiou.symm.le]
    unfold matchImage matchImageGo
    rw [hcand]
    simp [pickBest, matchImageGo]

/-- Witness for C7's theorem: the prediction `[0,0,10,10]` and ground truth
`[0,0,10,5]` of the same class have IoU exactly 1/2; at threshold 1/2 the
prediction is matched. -/
theorem match_eligible_iff_iou_ge_threshold_witness :
    matchImage [predBox] [gtBox] (1/2) = [(0, 0)] :=
  match_eligible_iff_iou_ge_threshold.2 predBox gtBox (1/2) rfl
    (by norm_num [iou, Box.area, interArea, predBox, gtBox])

/-- Claim C8, at the failing input: `GaussianBlur(kernel_size=3, sigma=(1, 2.0))`
has sigma bounds of different types, and the constructor escapes with
`AttributeError` — the `raise ValueError` formats its message with the
nonexistent attribute `self.width_lower` — rather than the `ValueError` the
claim states. -/
theorem gaussian_blur_sigma_type_mismatch_attribute_error :
    gaussian_blur_init (.int 3) (.pair (.int 1) (.float 2))
      = .error .attributeError ∧
      InitError.attributeError ≠ InitError.valueError :=
  ⟨rfl, by decide⟩

/-- Mapping an indicator over a list avoiding `b0` and keeping the nonzero
entries yields the empty list. -/
theorem filter_indicator_eq_nil (n b0 : ℕ) (l : List ℕ) (h : b0 ∉ l) :
    (l.map fun b => if b0 = b then n else 0).filter (fun c => c ≠ 0) = [] := by
  apply List.filter_eq_nil_iff.mpr
  intro c hc
  rcases List.mem_map.mp hc with ⟨b, hb, rfl⟩
  have hne : b0 ≠ b := fun he => h (he ▸ hb)
  simp [hne]

/-- Mapping an indicator over a duplicate-free list containing `b0` and
keeping the nonzero entries yields exactly the singleton `[n]`. -/
theorem filter_indicator_eq_singleton (n b0 : ℕ) (hn : n ≠ 0) (l : List ℕ)
    (hnd : l.Nodup) (hm : b0 ∈ l) :
    (l.map fun b => if b0 = b then n else 0).filter (fun c => c ≠ 0) = [n] := by
  induction l with
  | nil => cases hm
  | cons a l ih =>
    rw [List.nodup_cons] at hnd
    rcases List.mem_cons.mp hm with he | hm'
    · subst he
      simp only [List.map_cons, List.filter_cons, if_pos rfl]
      rw [if_pos (by simpa using hn)]
      rw [filter_indicator_eq_nil n b0 l hnd.1]
      simp
    · have hne : b0 ≠ a := fun he => hnd.1 (he ▸ hm')
      simp only [List.map_cons, List.filter_cons, if_neg hne]
      rw [if_neg (by simp)]
      exact ih hnd.2 hm'

/-- The histogram of a constant channel is the indicator of the value's bin
scaled by the pixel count. -/
theorem histogram_replicate (bins n v : ℕ) :
    Equalize.histogram bins (List.replicate n v)
      = (List.range bins).map fun b => if Equalize.binIndex bins v = b then n else 0 := by
  unfold Equalize.histogram
  refine List.map_congr_left ?_
  intro b _
  by_cases hb : Equalize.binIndex bins v = b
  · simp [hb, List.filter_replicate]
  · simp [hb, List.filter_replicate]

/-- The nonzero histogram of a nonempty constant channel is the single count
`[n]`. -/
theorem nonzeroHistogram_replicate (bins n v : ℕ) (hbins : 1 ≤ bins) (hn : n ≠ 0) :
    Equalize.nonzeroHistogram bins (List.replicate n v) = [n] := by
  unfold Equalize.nonzeroHistogram
  rw [histogram_replicate]
  refine filter_indicator_eq_singleton n _ hn _ (List.nodup_range bins) (List.mem_range.mpr ?_)
  exact Nat.lt_of_le_of_lt (Nat.min_le_right _ _) (by omega)

/-- A nonempty constant channel computes equalization step 0. -/
theorem step_replicate (bins n v : ℕ) (hbins : 1 ≤ bins) (hn : 0 < n) :
    Equalize.step bins (List.replicate n v) = some 0 := by
  unfold Equalize.step
  rw [nonzeroHistogram_replicate bins n v hbins (Nat.pos_iff_ne_zero.mp hn)]
  simp

/-- Claim C9: whenever the computed equalization step is zero,
`Equalize.equalize_channel` returns the channel unchanged (the identity, so
the input dtype is preserved by the final cast), and in particular every
nonempty constant-valued channel — whose step is zero — comes back
unchanged. -/
theorem equalize_channel_zero_step_identity :
    (∀ (bins : ℕ) (img : List ℕ), Equalize.step bins img = some 0 →
        Equalize.equalize_channel bins img = some img) ∧
      (∀ (bins n v : ℕ), 1 ≤ bins → 0 < n →
        Equalize.equalize_channel bins (List.replicate n v)
          = some (List.replicate n v)) := by
  have hzero : ∀ (bins : ℕ) (img : List ℕ), Equalize.step bins img = some 0 →
      Equalize.equalize_channel bins img = some img := by
    intro bins img h
    unfold Equalize.equalize_channel
    rw [h]
    rfl
  exact ⟨hzero, fun bins n v hb hn => hzero _ _ (step_replicate bins n v hb hn)⟩

/-- Witness for C9's theorem: a constant channel of three pixels of value 7
with the default 256 bins is returned unchanged. -/
theorem equalize_channel_zero_step_identity_witness :
    Equalize.equalize_channel 256 (List.replicate 3 7) = some (List.replicate 3 7) :=
  equalize_channel_zero_step_identity.2 256 3 7 (by decide) (by decide)

/-- Claim C10: with `label_smoothing = 0`, `MixUp._smooth_labels` is the
identity on any label tensor with at least one class (the off-value is 0 and
the on-value is 1), so the no-augmentation branch of `MixUp.call` passes
both images and labels through unchanged. -/
theorem mixup_smooth_labels_zero_identity {I : Type} (images : I)
    (labels : List (List ℚ)) (_h : 0 < (labels.getD 0 []).length) :
    MixUp.smooth_labels 0 labels = labels ∧
      MixUp.no_augment images 0 labels = (images, labels) := by
  have hs : MixUp.smooth_labels 0 labels = labels := by
    unfold MixUp.smooth_labels
    simp
  exact ⟨hs, by unfold MixUp.no_augment; rw [hs]⟩

/-- Witness for C10's theorem on a concrete one-hot batch of two labels over
two classes. -/
theorem mixup_smooth_labels_zero_identity_witness :
    MixUp.smooth_labels 0 [[1, 0], [0, 1]] = [[1, 0], [0, 1]] ∧
      MixUp.no_augment (0 : ℤ) 0 [[1, 0], [0, 1]] = ((0 : ℤ), [[1, 0], [0, 1]]) :=
  mixup_smooth_labels_zero_identity (0 : ℤ) [[1, 0], [0, 1]] (by decide)
